import Mathlib

/-!
Shallow embedding of the Spotlight-lover backend core:
the leaderboard service (ranking, deltas, ad hoc queries), the websocket
gateway (periodic and event-triggered recompute passes) and the vote
payment-confirmation path (`confirmPayment`).

The Prisma-backed metric store is modelled as a plain list of candidate
rows; a `findMany` with a `where`/`orderBy`/`take` clause becomes
filter / stable sort / take on that list.  Timestamps are natural
numbers.  JavaScript numbers holding sums and differences of integer
counters are modelled as `Int` where a difference may be negative and as
`Nat` where the source only ever stores non-negative counters.
-/

namespace Spotlight

/-- Prisma `CandidateStatus` enum. -/
inductive CandidateStatus where
  | PENDING
  | APPROVED
  | REJECTED
  deriving DecidableEq, Repr

/-- A row of the `candidate` table: the fields selected by the
leaderboard service plus `createdAt` and the approval status used in its
`where`/`orderBy` clauses. -/
structure Candidate where
  id : Nat
  name : String
  country : String
  city : String
  videoUrl : String
  thumbnailUrl : Option String
  totalVotes : Nat
  totalRevenue : Nat
  viewCount : Nat
  shareCount : Nat
  createdAt : Nat
  status : CandidateStatus
  deriving DecidableEq, Repr

/-- `LeaderboardEntry` interface of `leaderboard.service.ts`.
`voteChange`/`rankChange` are differences of counters, hence `Int`. -/
structure LeaderboardEntry where
  rank : Nat
  candidateId : Nat
  name : String
  country : String
  city : String
  videoUrl : String
  thumbnailUrl : String
  totalVotes : Nat
  totalRevenue : Nat
  viewCount : Nat
  shareCount : Nat
  voteChange : Int
  rankChange : Int
  deriving DecidableEq, Repr

/-- The `orderBy` clause of `getLeaderboard`:
`totalVotes desc`, then `totalRevenue desc`, then `createdAt asc`. -/
def candidateOrder (a b : Candidate) : Prop :=
  b.totalVotes < a.totalVotes ∨
    (a.totalVotes = b.totalVotes ∧
      (b.totalRevenue < a.totalRevenue ∨
        (a.totalRevenue = b.totalRevenue ∧ a.createdAt ≤ b.createdAt)))

instance : DecidableRel candidateOrder := fun a b => by
  unfold candidateOrder
  infer_instance

instance : IsTotal Candidate candidateOrder := by
  constructor
  intro a b
  unfold candidateOrder
  omega

instance : IsTrans Candidate candidateOrder := by
  constructor
  intro a b c
  unfold candidateOrder
  omega

/-- `prisma.candidate.findMany({ where: { status: APPROVED }, orderBy:
[totalVotes desc, totalRevenue desc, createdAt asc], take: limit })`
over a store modelled as a list of rows. -/
def findManyApproved (db : List Candidate) (limit : Nat) : List Candidate :=
  ((db.filter fun c => c.status == CandidateStatus.APPROVED).insertionSort
      candidateOrder).take limit

/-- `prisma.candidate.count({ where: { status: APPROVED } })`. -/
def countApproved (db : List Candidate) : Nat :=
  (db.filter fun c => c.status == CandidateStatus.APPROVED).length

/-- Mutable fields of `LeaderboardService`: the cached leaderboard and
the last-update timestamp. -/
structure LeaderboardServiceState where
  cachedLeaderboard : List LeaderboardEntry
  lastUpdate : Nat
  deriving DecidableEq, Repr

/-- The body of the `candidates.map((candidate, index) => ...)` callback
in `getLeaderboard`: build one entry, looking the candidate up in the
previous cached leaderboard for the two deltas. -/
def toEntry (cache : List LeaderboardEntry) (index : Nat) (candidate : Candidate) :
    LeaderboardEntry :=
  let previousEntry := cache.find? fun entry => entry.candidateId == candidate.id
  { rank := index + 1
    candidateId := candidate.id
    name := candidate.name
    country := candidate.country
    city := candidate.city
    videoUrl := candidate.videoUrl
    thumbnailUrl := candidate.thumbnailUrl.getD ""
    totalVotes := candidate.totalVotes
    totalRevenue := candidate.totalRevenue
    viewCount := candidate.viewCount
    shareCount := candidate.shareCount
    voteChange :=
      match previousEntry with
      | some p => (candidate.totalVotes : Int) - (p.totalVotes : Int)
      | none => 0
    rankChange :=
      match previousEntry with
      | some p => (p.rank : Int) - ((index : Int) + 1)
      | none => 0 }

/-- `LeaderboardService.getLeaderboard(limit)`: query the approved
candidates sorted by the ranking key, build positional entries with
deltas against the cached leaderboard, then replace the cache and the
last-update timestamp.  Returns the fresh leaderboard and the new
service state; `now` is the clock value `new Date()` reads. -/
def getLeaderboard (db : List Candidate) (s : LeaderboardServiceState)
    (now : Nat) (limit : Nat) :
    List LeaderboardEntry × LeaderboardServiceState :=
  let candidates := findManyApproved db limit
  let leaderboard := candidates.enum.map fun ic => toEntry s.cachedLeaderboard ic.1 ic.2
  (leaderboard, { cachedLeaderboard := leaderboard, lastUpdate := now })

/-- `LeaderboardService.getTopCandidates(limit)`:
`(await this.getLeaderboard(100)).slice(0, limit)`. -/
def getTopCandidates (db : List Candidate) (s : LeaderboardServiceState)
    (now : Nat) (limit : Nat) :
    List LeaderboardEntry × LeaderboardServiceState :=
  let r := getLeaderboard db s now 100
  (r.1.take limit, r.2)

/-- `LeaderboardService.getCandidateRank(candidateId)`: look the
candidate up in `getLeaderboard(100)` and count all approved
candidates. -/
def getCandidateRank (db : List Candidate) (s : LeaderboardServiceState)
    (now : Nat) (candidateId : Nat) :
    (Option LeaderboardEntry × Nat) × LeaderboardServiceState :=
  let r := getLeaderboard db s now 100
  let entry := r.1.find? fun e => e.candidateId == candidateId
  let total := countApproved db
  ((entry, total), r.2)

/-- `LeaderboardService.refreshLeaderboard()`: `getLeaderboard(100)`. -/
def refreshLeaderboard (db : List Candidate) (s : LeaderboardServiceState)
    (now : Nat) : List LeaderboardEntry × LeaderboardServiceState :=
  getLeaderboard db s now 100

/-- One element of the list `getTightRaces` returns. -/
structure TightRace where
  candidate1 : LeaderboardEntry
  candidate2 : LeaderboardEntry
  voteDifference : Int
  deriving DecidableEq, Repr

/-- The `for` loop of `getTightRaces`: walk the adjacent pairs of the
leaderboard in order, pushing each pair whose vote difference lies in
(0, 10] until the accumulator reaches `limit`. -/
def tightRacesLoop (limit : Nat) : List LeaderboardEntry → List TightRace → List TightRace
  | a :: b :: rest, acc =>
    if acc.length < limit then
      let voteDiff : Int := (a.totalVotes : Int) - (b.totalVotes : Int)
      if 0 < voteDiff ∧ voteDiff ≤ 10 then
        tightRacesLoop limit (b :: rest) (acc ++ [⟨a, b, voteDiff⟩])
      else
        tightRacesLoop limit (b :: rest) acc
    else
      acc
  | _, acc => acc

/-- `LeaderboardService.getTightRaces(limit)`: recompute via
`getLeaderboard(100)`, then scan adjacent pairs. -/
def getTightRaces (db : List Candidate) (s : LeaderboardServiceState)
    (now : Nat) (limit : Nat) : List TightRace × LeaderboardServiceState :=
  let r := getLeaderboard db s now 100
  (tightRacesLoop limit r.1 [], r.2)

/-- The comparator `(a, b) => (b.voteChange || 0) - (a.voteChange || 0)`
of `getRisingStars` as the total preorder it sorts by (descending
`voteChange`; `voteChange` is always set in an entry, so `|| 0` is the
identity). -/
def voteChangeGe (a b : LeaderboardEntry) : Prop :=
  b.voteChange ≤ a.voteChange

instance : DecidableRel voteChangeGe := fun a b => by
  unfold voteChangeGe
  infer_instance

instance : IsTotal LeaderboardEntry voteChangeGe := by
  constructor
  intro a b
  unfold voteChangeGe
  omega

instance : IsTrans LeaderboardEntry voteChangeGe := by
  constructor
  intro a b c
  unfold voteChangeGe
  omega

/-- `LeaderboardService.getRisingStars(limit)`: recompute via
`getLeaderboard(100)`, keep the entries whose `voteChange` is truthy and
positive (`entry.voteChange && entry.voteChange > 0`), sort them
descending by `voteChange` (JS `Array.prototype.sort` is stable, as is
`List.insertionSort` for a total preorder) and truncate to `limit`. -/
def getRisingStars (db : List Candidate) (s : LeaderboardServiceState)
    (now : Nat) (limit : Nat) : List LeaderboardEntry × LeaderboardServiceState :=
  let r := getLeaderboard db s now 100
  (((r.1.filter fun entry => decide (entry.voteChange ≠ 0 ∧ 0 < entry.voteChange)).insertionSort
      voteChangeGe).take limit,
    r.2)

/-!
## Websocket gateway (`leaderboard.gateway.ts`)

`broadcastLeaderboardUpdate` runs one full recompute
(`refreshLeaderboard`, i.e. `getLeaderboard(100)`) and emits the result
to every connected client; the 10-second interval timer and
`triggerUpdate` (called by the votes service after a confirmed payment)
both invoke it directly.  `broadcasts` is an observation counter for the
number of completed broadcast/recompute passes.
-/

/-- Mutable state of `LeaderboardGateway` relevant to the recompute
path, plus a counter of completed broadcast passes. -/
structure GatewayState where
  svc : LeaderboardServiceState
  broadcasts : Nat
  deriving DecidableEq, Repr

/-- `LeaderboardGateway.broadcastLeaderboardUpdate()`: refresh the
leaderboard (one full recompute) and emit it to all clients. -/
def broadcastLeaderboardUpdate (db : List Candidate) (g : GatewayState)
    (now : Nat) : GatewayState :=
  let r := refreshLeaderboard db g.svc now
  { svc := r.2, broadcasts := g.broadcasts + 1 }

/-- `LeaderboardGateway.triggerUpdate()`: forwards to
`broadcastLeaderboardUpdate` unconditionally. -/
def triggerUpdate (db : List Candidate) (g : GatewayState) (now : Nat) :
    GatewayState :=
  broadcastLeaderboardUpdate db g now

/-- A recompute request reaching the gateway: a periodic 10-second tick
of the `setInterval` timer, or an event trigger from the votes
service. -/
inductive GatewayEvent where
  | tick
  | trigger
  deriving DecidableEq, Repr

/-- Dispatch of one recompute request: a tick runs
`broadcastLeaderboardUpdate`, an event trigger runs `triggerUpdate`. -/
def handleEvent (db : List Candidate) (g : GatewayState) (now : Nat) :
    GatewayEvent → GatewayState
  | GatewayEvent.tick => broadcastLeaderboardUpdate db g now
  | GatewayEvent.trigger => triggerUpdate db g now

/-- Delivery of a batch of recompute requests.  Node's event loop is
single threaded, so simultaneously arriving tick and trigger callbacks
are executed one after the other; each invocation runs to completion of
its own recompute. -/
def processEvents (db : List Candidate) (now : Nat) :
    GatewayState → List GatewayEvent → GatewayState
  | g, [] => g
  | g, e :: es => processEvents db now (handleEvent db g now e) es

/-!
## Payment confirmation (`votes.service.ts`)
-/

/-- Prisma `PaymentStatus` enum. -/
inductive PaymentStatus where
  | PENDING
  | COMPLETED
  | FAILED
  deriving DecidableEq, Repr

/-- A row of the `vote` table: the fields `confirmPayment` reads or
writes.  `providerTxId` is the provider-assigned reference, set only
after payment initialization. -/
structure Vote where
  id : Nat
  candidateId : Nat
  amount : Nat
  providerTxId : Option Nat
  paymentStatus : PaymentStatus
  paidAt : Option Nat
  isVerified : Bool
  verifiedAt : Option Nat
  deriving DecidableEq, Repr

/-- A row of the `transaction` table: the fields `confirmPayment`
touches (the opaque webhook payload is not modelled). -/
structure Transaction where
  id : Nat
  voteId : Nat
  status : PaymentStatus
  deriving DecidableEq, Repr

/-- The tables `confirmPayment` reads and writes, plus an observation
counter for the `leaderboardGateway.triggerUpdate()` calls it issues. -/
structure VotesDb where
  votes : List Vote
  transactions : List Transaction
  candidates : List Candidate
  leaderboardTriggers : Nat
  deriving DecidableEq, Repr

/-- `VotesService.confirmPayment(providerTxId, status)`:
1. find the vote by provider reference; if none, report unmatched
   (return `none`, nothing changes);
2. if the vote is already `COMPLETED`, return it unchanged (no-op);
3. otherwise set the vote's status to the incoming outcome (stamping
   `paidAt`/`isVerified`/`verifiedAt` when it is `COMPLETED`; Prisma
   leaves a field untouched when the update passes `undefined`);
4. mirror the status onto the vote's transaction row if it has one;
5. if the outcome is `COMPLETED`, increment the candidate's
   `totalVotes` by 1 and `totalRevenue` by the vote amount and issue one
   `triggerUpdate` to the leaderboard gateway.
`now` is the clock value used for the timestamps. -/
def confirmPayment (db : VotesDb) (providerTxId : Nat)
    (status : PaymentStatus) (now : Nat) : Option Vote × VotesDb :=
  match db.votes.find? fun v => v.providerTxId == some providerTxId with
  | none => (none, db)
  | some vote =>
    if vote.paymentStatus = PaymentStatus.COMPLETED then
      (some vote, db)
    else
      let updatedVote : Vote :=
        { vote with
          paymentStatus := status
          paidAt := if status = PaymentStatus.COMPLETED then some now else vote.paidAt
          isVerified := status = PaymentStatus.COMPLETED
          verifiedAt := if status = PaymentStatus.COMPLETED then some now else vote.verifiedAt }
      let votes' := db.votes.map fun w => if w.id = vote.id then updatedVote else w
      let transactions' :=
        match db.transactions.find? fun t => t.voteId == vote.id with
        | some t =>
          db.transactions.map fun u => if u.id = t.id then { u with status := status } else u
        | none => db.transactions
      if status = PaymentStatus.COMPLETED then
        let candidates' := db.candidates.map fun c =>
          if c.id = vote.candidateId then
            { c with
              totalVotes := c.totalVotes + 1
              totalRevenue := c.totalRevenue + vote.amount }
          else c
        (some updatedVote,
          { votes := votes'
            transactions := transactions'
            candidates := candidates'
            leaderboardTriggers := db.leaderboardTriggers + 1 })
      else
        (some updatedVote,
          { db with votes := votes', transactions := transactions' })

/-- The `totalVotes` counter of the candidate with the given id
(0 when the id is absent). -/
def candidateVotes (db : VotesDb) (cid : Nat) : Nat :=
  match db.candidates.find? fun c => c.id == cid with
  | some c => c.totalVotes
  | none => 0

/-- The `totalRevenue` counter of the candidate with the given id
(0 when the id is absent). -/
def candidateRevenue (db : VotesDb) (cid : Nat) : Nat :=
  match db.candidates.find? fun c => c.id == cid with
  | some c => c.totalRevenue
  | none => 0

/-!
## Helper lemmas
-/

theorem map_rank_toEntry (cache : List LeaderboardEntry) (l : List Candidate) :
    (l.enum.map fun ic => toEntry cache ic.1 ic.2).map LeaderboardEntry.rank =
      List.range' 1 l.length := by
  rw [List.map_map]
  have h1 : (LeaderboardEntry.rank ∘ fun ic : Nat × Candidate => toEntry cache ic.1 ic.2) =
      ((fun i => i + 1) ∘ Prod.fst) := by
    funext ic
    rfl
  rw [h1, ← List.map_map, List.enum_map_fst, List.range'_eq_map_range]
  apply List.map_congr_left
  intro a _
  omega

theorem map_candidateId_toEntry (cache : List LeaderboardEntry) (l : List Candidate) :
    (l.enum.map fun ic => toEntry cache ic.1 ic.2).map LeaderboardEntry.candidateId =
      l.map Candidate.id := by
  rw [List.map_map]
  have h1 : (LeaderboardEntry.candidateId ∘ fun ic : Nat × Candidate => toEntry cache ic.1 ic.2) =
      (Candidate.id ∘ Prod.snd) := by
    funext ic
    rfl
  rw [h1, ← List.map_map, List.enum_map_snd]

theorem length_findManyApproved (db : List Candidate) (limit : Nat) :
    (findManyApproved db limit).length = min limit (countApproved db) := by
  unfold findManyApproved countApproved
  rw [List.length_take, List.length_insertionSort]

theorem getLeaderboard_map_rank (db : List Candidate) (s : LeaderboardServiceState)
    (now limit : Nat) :
    (getLeaderboard db s now limit).1.map LeaderboardEntry.rank =
      List.range' 1 (min limit (countApproved db)) := by
  show ((findManyApproved db limit).enum.map
      fun ic => toEntry s.cachedLeaderboard ic.1 ic.2).map LeaderboardEntry.rank = _
  rw [map_rank_toEntry, length_findManyApproved]

theorem chain'_succ_range' : ∀ (n s : Nat),
    List.Chain' (fun a b => b = a + 1) (List.range' s n)
  | 0, _ => by simp
  | 1, s => by simp
  | n + 2, s => by
    rw [List.range'_succ, List.range'_succ, List.chain'_cons]
    refine ⟨rfl, ?_⟩
    have h := chain'_succ_range' (n + 1) (s + 1)
    rwa [List.range'_succ] at h

theorem getLeaderboard_chain'_rank (db : List Candidate) (s : LeaderboardServiceState)
    (now limit : Nat) :
    List.Chain' (fun x y : LeaderboardEntry => y.rank = x.rank + 1)
      ((getLeaderboard db s now limit).1) := by
  have h2 := chain'_succ_range' (min limit (countApproved db)) 1
  rw [← getLeaderboard_map_rank db s now limit] at h2
  exact (List.chain'_map LeaderboardEntry.rank).mp h2

theorem find?_map_of_forall_eq_or {α : Type} {p : α → Bool} {f : α → α} {u v : α}
    {l : List α} (hpu : p u = true) (hor : ∀ w, f w = w ∨ f w = u)
    (hfind : l.find? p = some v) (hfu : f v = u) :
    (l.map f).find? p = some u := by
  induction l with
  | nil => simp at hfind
  | cons a t ih =>
    by_cases ha : p a = true
    · rw [List.find?_cons_of_pos t ha] at hfind
      have hv : a = v := by injection hfind
      have hfa : f a = u := by rw [hv, hfu]
      rw [List.map_cons, hfa]
      exact List.find?_cons_of_pos _ hpu
    · rw [List.find?_cons_of_neg t ha] at hfind
      rw [List.map_cons]
      rcases hor a with h | h
      · rw [h, List.find?_cons_of_neg _ ha]
        exact ih hfind
      · rw [h]
        exact List.find?_cons_of_pos _ hpu

theorem find?_map_of_pres {α : Type} {p : α → Bool} {f : α → α} {v : α}
    {l : List α} (hp : ∀ w, p (f w) = p w) (hfind : l.find? p = some v) :
    (l.map f).find? p = some (f v) := by
  induction l with
  | nil => simp at hfind
  | cons a t ih =>
    by_cases ha : p a = true
    · rw [List.find?_cons_of_pos t ha] at hfind
      have hv : a = v := by injection hfind
      rw [List.map_cons, List.find?_cons_of_pos _ (by rw [hp a]; exact ha), hv]
    · rw [List.find?_cons_of_neg t ha] at hfind
      rw [List.map_cons, List.find?_cons_of_neg _ (by rw [hp a]; exact ha)]
      exact ih hfind

/-!
## Concrete inputs used in counterexamples and witnesses
-/

/-- A candidate row with the given id, counters, creation time and
status; display fields empty. -/
def mkCandidate (id votes rev created : Nat) (st : CandidateStatus) : Candidate :=
  { id := id
    name := ""
    country := ""
    city := ""
    videoUrl := ""
    thumbnailUrl := none
    totalVotes := votes
    totalRevenue := rev
    viewCount := 0
    shareCount := 0
    createdAt := created
    status := st }

/-- A cached leaderboard entry with the given rank, candidate id and
vote count; other fields empty or zero. -/
def mkEntry (rank cid votes : Nat) : LeaderboardEntry :=
  { rank := rank
    candidateId := cid
    name := ""
    country := ""
    city := ""
    videoUrl := ""
    thumbnailUrl := ""
    totalVotes := votes
    totalRevenue := 0
    viewCount := 0
    shareCount := 0
    voteChange := 0
    rankChange := 0 }

/-- Service state at construction: empty cache. -/
def initialState : LeaderboardServiceState :=
  { cachedLeaderboard := [], lastUpdate := 0 }

def exDbC1 : List Candidate :=
  [mkCandidate 1 10 0 0 CandidateStatus.APPROVED,
   mkCandidate 2 5 0 1 CandidateStatus.APPROVED]

/-!
## Claims
-/

/-- C1 (counterexample): with two APPROVED candidates in the store and a
requested limit of 1, the snapshot produced by `getLeaderboard` has
ranks `[1]`, not the integers `1..N` for `N = 2` eligible entities. -/
theorem c1_counterexample :
    ¬ ((getLeaderboard exDbC1 initialState 0 1).1.map LeaderboardEntry.rank =
        List.range' 1 (countApproved exDbC1)) := by
  decide

/-- C1 (amended): for every snapshot produced by `getLeaderboard`, the
ranks of the returned entries are exactly the integers `1..K` with no
gaps or duplicates, where `K = min limit N` and `N` is the number of
APPROVED entities in the metric store (the query is capped by `take:
limit`, 100 by default). -/
theorem c1_ranks_contiguous (db : List Candidate) (s : LeaderboardServiceState)
    (now limit : Nat) :
    (getLeaderboard db s now limit).1.map LeaderboardEntry.rank =
      List.range' 1 (min limit (countApproved db)) :=
  getLeaderboard_map_rank db s now limit

def exDb4 : List Candidate := [mkCandidate 7 3 0 0 CandidateStatus.APPROVED]

def exS4 : LeaderboardServiceState :=
  { cachedLeaderboard := [mkEntry 1 9 50], lastUpdate := 5 }

/-- C4 (counterexample): with a held snapshot containing candidate 9 and
a store containing only candidate 7, `getTopCandidates` and
`getTightRaces` both replace the stored current snapshot, and the top-N
answer is not computed from the held snapshot. -/
theorem c4_counterexample :
    (getTopCandidates exDb4 exS4 9 10).2.cachedLeaderboard ≠ exS4.cachedLeaderboard ∧
    (getTightRaces exDb4 exS4 9 10).2.cachedLeaderboard ≠ exS4.cachedLeaderboard ∧
    (getTopCandidates exDb4 exS4 9 10).1 ≠ exS4.cachedLeaderboard.take 10 := by
  decide

/-- C4 (amended): every ad hoc query operation (top-N, single-entity
rank, tight races, rising stars) forces a full recompute: each one calls
`getLeaderboard(100)`, which re-queries the metric store and replaces
the stored current snapshot with the freshly computed ranking. -/
theorem c4_adhoc_queries_recompute (db : List Candidate)
    (s : LeaderboardServiceState) (now limit cid : Nat) :
    (getTopCandidates db s now limit).2 = (getLeaderboard db s now 100).2 ∧
    (getTopCandidates db s now limit).1 = (getLeaderboard db s now 100).1.take limit ∧
    (getTightRaces db s now limit).2 = (getLeaderboard db s now 100).2 ∧
    (getRisingStars db s now limit).2 = (getLeaderboard db s now 100).2 ∧
    (getCandidateRank db s now cid).2 = (getLeaderboard db s now 100).2 ∧
    (getLeaderboard db s now 100).2.cachedLeaderboard = (getLeaderboard db s now 100).1 :=
  ⟨rfl, rfl, rfl, rfl, rfl, rfl⟩

def exDbABC : List Candidate :=
  [mkCandidate 1 100 10000 0 CandidateStatus.APPROVED,
   mkCandidate 2 100 9500 1 CandidateStatus.APPROVED,
   mkCandidate 3 95 20000 2 CandidateStatus.APPROVED]

/-- C5: every snapshot is built from the eligible candidates sorted by
`totalVotes` desc, then `totalRevenue` desc, then `createdAt` asc, with
positional 1-based ranks; in particular, for A(votes=100,rev=10000),
B(votes=100,rev=9500), C(votes=95,rev=20000) created in order A,B,C the
ranking is A rank 1, B rank 2, C rank 3. -/
theorem c5_sort_key_and_scenario :
    (∀ (db : List Candidate) (limit : Nat),
        List.Sorted candidateOrder (findManyApproved db limit)) ∧
    (∀ (db : List Candidate) (s : LeaderboardServiceState) (now limit : Nat),
        (getLeaderboard db s now limit).1.map LeaderboardEntry.rank =
          List.range' 1 (min limit (countApproved db))) ∧
    (getLeaderboard exDbABC initialState 0 100).1.map
        (fun e => (e.candidateId, e.rank)) = [(1, 1), (2, 2), (3, 3)] := by
  refine ⟨?_, ?_, ?_⟩
  · intro db limit
    unfold findManyApproved
    exact List.Pairwise.sublist (List.take_sublist _ _)
      (List.sorted_insertionSort candidateOrder _)
  · exact getLeaderboard_map_rank
  · decide

/-- C6: for every entry of a snapshot, if its candidate id is found in
the previous cached snapshot then `voteChange` is the current vote count
minus the previous one and `rankChange` is the previous rank minus the
current rank; if it is not found, both deltas are 0. -/
theorem c6_deltas (db : List Candidate) (s : LeaderboardServiceState)
    (now limit : Nat) (e : LeaderboardEntry)
    (he : e ∈ (getLeaderboard db s now limit).1) :
    (∀ p, s.cachedLeaderboard.find? (fun q => q.candidateId == e.candidateId) = some p →
        e.voteChange = (e.totalVotes : Int) - (p.totalVotes : Int) ∧
        e.rankChange = (p.rank : Int) - (e.rank : Int)) ∧
    (s.cachedLeaderboard.find? (fun q => q.candidateId == e.candidateId) = none →
        e.voteChange = 0 ∧ e.rankChange = 0) := by
  have he' : e ∈ (findManyApproved db limit).enum.map
      (fun ic => toEntry s.cachedLeaderboard ic.1 ic.2) := he
  rw [List.mem_map] at he'
  obtain ⟨ic, _, hic⟩ := he'
  subst hic
  constructor
  · intro p hp
    simp only [toEntry] at hp ⊢
    rw [hp]
    exact ⟨rfl, by push_cast; ring⟩
  · intro hp
    simp only [toEntry] at hp ⊢
    rw [hp]
    exact ⟨rfl, rfl⟩

def exDb6 : List Candidate := [mkCandidate 1 10 0 0 CandidateStatus.APPROVED]

def exS6 : LeaderboardServiceState :=
  { cachedLeaderboard := [mkEntry 3 1 4], lastUpdate := 0 }

def exE6 : LeaderboardEntry :=
  toEntry exS6.cachedLeaderboard 0 (mkCandidate 1 10 0 0 CandidateStatus.APPROVED)

/-- C6 (witness): the delta property instantiated on a store with one
approved candidate and a cache holding its previous entry. -/
theorem c6_deltas_witness :
    (∀ p, exS6.cachedLeaderboard.find?
          (fun q => q.candidateId == exE6.candidateId) = some p →
        exE6.voteChange = (exE6.totalVotes : Int) - (p.totalVotes : Int) ∧
        exE6.rankChange = (p.rank : Int) - (exE6.rank : Int)) ∧
    (exS6.cachedLeaderboard.find?
          (fun q => q.candidateId == exE6.candidateId) = none →
        exE6.voteChange = 0 ∧ exE6.rankChange = 0) :=
  c6_deltas exDb6 exS6 0 100 exE6 (by decide)

def exG9 : GatewayState := { svc := initialState, broadcasts := 0 }

/-- C9 (counterexample): a periodic tick and an event trigger delivered
together produce two full recompute/broadcast passes, not one; nothing
is dropped. -/
theorem c9_counterexample :
    (processEvents [] 0 exG9 [GatewayEvent.tick, GatewayEvent.trigger]).broadcasts = 2 ∧
    (processEvents [] 0 exG9 [GatewayEvent.tick, GatewayEvent.trigger]).broadcasts ≠ 1 := by
  decide

/-- C9 (amended): the gateway has no in-flight guard: every delivered
recompute request (periodic tick or event trigger) runs its own full
recompute/broadcast pass, so a batch of n requests runs exactly n
passes. -/
theorem c9_no_single_flight (db : List Candidate) (now : Nat)
    (g : GatewayState) (evs : List GatewayEvent) :
    (processEvents db now g evs).broadcasts = g.broadcasts + evs.length := by
  induction evs generalizing g with
  | nil => rfl
  | cons e es ih =>
    have h : (handleEvent db g now e).broadcasts = g.broadcasts + 1 := by
      cases e <;> rfl
    calc (processEvents db now g (e :: es)).broadcasts
        = (processEvents db now (handleEvent db g now e) es).broadcasts := rfl
      _ = (handleEvent db g now e).broadcasts + es.length := ih _
      _ = g.broadcasts + (e :: es).length := by rw [h, List.length_cons]; omega

/-- Early-return branch of `confirmPayment`: when the matched vote is
already COMPLETED the call returns the existing record and changes
nothing, whatever the incoming outcome is. -/
theorem confirm_noop_of_completed (db : VotesDb) (ref now : Nat)
    (st : PaymentStatus) (v : Vote)
    (hfind : db.votes.find? (fun w => w.providerTxId == some ref) = some v)
    (h : v.paymentStatus = PaymentStatus.COMPLETED) :
    confirmPayment db ref st now = (some v, db) := by
  unfold confirmPayment
  rw [hfind]
  simp [h]

/-- Transition branch of `confirmPayment` for a COMPLETED outcome on a
record that is not yet COMPLETED: the returned record and the three
components of the state change that the claims are about. -/
theorem confirm_transition (db : VotesDb) (ref now : Nat) (v : Vote)
    (hfind : db.votes.find? (fun w => w.providerTxId == some ref) = some v)
    (hne : v.paymentStatus ≠ PaymentStatus.COMPLETED) :
    (confirmPayment db ref PaymentStatus.COMPLETED now).1 =
        some { v with
          paymentStatus := PaymentStatus.COMPLETED
          paidAt := some now
          isVerified := true
          verifiedAt := some now } ∧
    (confirmPayment db ref PaymentStatus.COMPLETED now).2.votes =
        db.votes.map (fun w => if w.id = v.id then
          { v with
            paymentStatus := PaymentStatus.COMPLETED
            paidAt := some now
            isVerified := true
            verifiedAt := some now } else w) ∧
    (confirmPayment db ref PaymentStatus.COMPLETED now).2.candidates =
        db.candidates.map (fun c0 => if c0.id = v.candidateId then
          { c0 with
            totalVotes := c0.totalVotes + 1
            totalRevenue := c0.totalRevenue + v.amount } else c0) ∧
    (confirmPayment db ref PaymentStatus.COMPLETED now).2.leaderboardTriggers =
        db.leaderboardTriggers + 1 := by
  unfold confirmPayment
  rw [hfind]
  simp [hne]

/-- After a PENDING→COMPLETED (or FAILED→COMPLETED) transition, looking
the same provider reference up again finds the updated, COMPLETED
record. -/
theorem find?_votes_after_transition (db : VotesDb) (ref now : Nat) (v : Vote)
    (hfind : db.votes.find? (fun w => w.providerTxId == some ref) = some v)
    (hne : v.paymentStatus ≠ PaymentStatus.COMPLETED) :
    (confirmPayment db ref PaymentStatus.COMPLETED now).2.votes.find?
        (fun w => w.providerTxId == some ref) =
      some { v with
        paymentStatus := PaymentStatus.COMPLETED
        paidAt := some now
        isVerified := true
        verifiedAt := some now } := by
  rw [(confirm_transition db ref now v hfind hne).2.1]
  refine find?_map_of_forall_eq_or ?_ ?_ hfind (by simp)
  · have h := List.find?_some hfind
    exact h
  · intro w
    by_cases hw : w.id = v.id
    · right
      simp [hw]
    · left
      simp [hw]

/-- After the candidate increment, the candidate lookup returns the row
with both counters incremented. -/
theorem find?_candidates_after_transition (db : VotesDb) (ref now : Nat)
    (v : Vote) (c : Candidate)
    (hfind : db.votes.find? (fun w => w.providerTxId == some ref) = some v)
    (hne : v.paymentStatus ≠ PaymentStatus.COMPLETED)
    (hc : db.candidates.find? (fun c0 => c0.id == v.candidateId) = some c) :
    (confirmPayment db ref PaymentStatus.COMPLETED now).2.candidates.find?
        (fun c0 => c0.id == v.candidateId) =
      some { c with
        totalVotes := c.totalVotes + 1
        totalRevenue := c.totalRevenue + v.amount } := by
  rw [(confirm_transition db ref now v hfind hne).2.2.1]
  have hcid : c.id = v.candidateId := by
    have h := List.find?_some hc
    simpa using h
  refine Eq.trans (find?_map_of_pres ?_ hc) ?_
  · intro w
    by_cases hw : w.id = v.candidateId
    · simp [hw]
    · simp [hw]
  · simp [hcid]

/-- C2: if the matched payment record is already COMPLETED, a further
confirmation for the same provider reference is a no-op returning the
existing record with the whole store (metrics and recompute-trigger
count included) unchanged; and confirming the same reference of a
PENDING record as COMPLETED twice leaves the second call a no-op, so
the entity's counters grow by exactly one vote and one vote amount in
total, with exactly one recompute trigger issued. -/
theorem c2_confirm_idempotent (db : VotesDb) (ref now now' : Nat)
    (st : PaymentStatus) (v : Vote)
    (hfind : db.votes.find? (fun w => w.providerTxId == some ref) = some v) :
    (v.paymentStatus = PaymentStatus.COMPLETED →
        confirmPayment db ref st now = (some v, db)) ∧
    (v.paymentStatus = PaymentStatus.PENDING →
        ∀ c, db.candidates.find? (fun c0 => c0.id == v.candidateId) = some c →
          (confirmPayment (confirmPayment db ref PaymentStatus.COMPLETED now).2
              ref PaymentStatus.COMPLETED now').2 =
            (confirmPayment db ref PaymentStatus.COMPLETED now).2 ∧
          candidateVotes
              (confirmPayment (confirmPayment db ref PaymentStatus.COMPLETED now).2
                ref PaymentStatus.COMPLETED now').2 v.candidateId =
            c.totalVotes + 1 ∧
          candidateRevenue
              (confirmPayment (confirmPayment db ref PaymentStatus.COMPLETED now).2
                ref PaymentStatus.COMPLETED now').2 v.candidateId =
            c.totalRevenue + v.amount ∧
          (confirmPayment (confirmPayment db ref PaymentStatus.COMPLETED now).2
              ref PaymentStatus.COMPLETED now').2.leaderboardTriggers =
            db.leaderboardTriggers + 1) := by
  constructor
  · intro h
    exact confirm_noop_of_completed db ref now st v hfind h
  · intro h c hc
    have hne : v.paymentStatus ≠ PaymentStatus.COMPLETED := by
      rw [h]
      exact fun hx => PaymentStatus.noConfusion hx
    have hsecond : confirmPayment (confirmPayment db ref PaymentStatus.COMPLETED now).2
        ref PaymentStatus.COMPLETED now' =
        (some { v with
          paymentStatus := PaymentStatus.COMPLETED
          paidAt := some now
          isVerified := true
          verifiedAt := some now },
         (confirmPayment db ref PaymentStatus.COMPLETED now).2) :=
      confirm_noop_of_completed _ ref now' PaymentStatus.COMPLETED _
        (find?_votes_after_transition db ref now v hfind hne) rfl
    have hstate : (confirmPayment (confirmPayment db ref PaymentStatus.COMPLETED now).2
        ref PaymentStatus.COMPLETED now').2 =
        (confirmPayment db ref PaymentStatus.COMPLETED now).2 := by
      rw [hsecond]
    refine ⟨hstate, ?_, ?_, ?_⟩
    · rw [hstate]
      unfold candidateVotes
      rw [find?_candidates_after_transition db ref now v c hfind hne hc]
    · rw [hstate]
      unfold candidateRevenue
      rw [find?_candidates_after_transition db ref now v c hfind hne hc]
    · rw [hstate]
      exact (confirm_transition db ref now v hfind hne).2.2.2

/-- A vote row with the given id, candidate, amount, provider reference
and status, timestamps unset. -/
def mkVote (id cid amount ref : Nat) (st : PaymentStatus) : Vote :=
  { id := id
    candidateId := cid
    amount := amount
    providerTxId := some ref
    paymentStatus := st
    paidAt := none
    isVerified := false
    verifiedAt := none }

def exCand7 : Candidate := mkCandidate 7 150 2000 0 CandidateStatus.APPROVED

def exVdbC : VotesDb :=
  { votes := [mkVote 1 7 100 5 PaymentStatus.COMPLETED]
    transactions := [{ id := 1, voteId := 1, status := PaymentStatus.COMPLETED }]
    candidates := [exCand7]
    leaderboardTriggers := 0 }

def exVdbP : VotesDb :=
  { votes := [mkVote 1 7 100 5 PaymentStatus.PENDING]
    transactions := [{ id := 1, voteId := 1, status := PaymentStatus.PENDING }]
    candidates := [exCand7]
    leaderboardTriggers := 0 }

/-- C2 (witness): the no-op branch on a store whose only vote is already
COMPLETED, and the exactly-once increment on a store whose only vote is
PENDING and is confirmed COMPLETED twice. -/
theorem c2_confirm_idempotent_witness :
    confirmPayment exVdbC 5 PaymentStatus.COMPLETED 3 =
      (some (mkVote 1 7 100 5 PaymentStatus.COMPLETED), exVdbC) ∧
    candidateVotes
        (confirmPayment (confirmPayment exVdbP 5 PaymentStatus.COMPLETED 3).2
          5 PaymentStatus.COMPLETED 4).2 7 = 151 :=
  ⟨(c2_confirm_idempotent exVdbC 5 3 4 PaymentStatus.COMPLETED
        (mkVote 1 7 100 5 PaymentStatus.COMPLETED) (by decide)).1 (by decide),
   ((c2_confirm_idempotent exVdbP 5 3 4 PaymentStatus.COMPLETED
        (mkVote 1 7 100 5 PaymentStatus.PENDING) (by decide)).2 (by decide)
      exCand7 (by decide)).2.1⟩

def exVdbF : VotesDb :=
  { votes := [mkVote 1 7 100 5 PaymentStatus.FAILED]
    transactions := [{ id := 1, voteId := 1, status := PaymentStatus.FAILED }]
    candidates := [exCand7]
    leaderboardTriggers := 0 }

/-- C3 (counterexample): FAILED is not terminal in the code.  A record
whose status is FAILED that later receives a COMPLETED confirmation for
its provider reference transitions to COMPLETED, increments the entity's
vote count (150 → 151) and issues a recompute trigger. -/
theorem c3_counterexample :
    (confirmPayment exVdbF 5 PaymentStatus.COMPLETED 3).1.map Vote.paymentStatus =
        some PaymentStatus.COMPLETED ∧
    candidateVotes (confirmPayment exVdbF 5 PaymentStatus.COMPLETED 3).2 7 = 151 ∧
    (confirmPayment exVdbF 5 PaymentStatus.COMPLETED 3).2.leaderboardTriggers = 1 := by
  decide

/-- C3 (amended): only COMPLETED is terminal.  A record leaves COMPLETED
never, but a record whose status is FAILED accepts a later COMPLETED
confirmation: its status becomes COMPLETED, the entity's vote count is
incremented and one recompute trigger is issued. -/
theorem c3_failed_not_terminal (db : VotesDb) (ref now : Nat) (v : Vote)
    (hfind : db.votes.find? (fun w => w.providerTxId == some ref) = some v)
    (hf : v.paymentStatus = PaymentStatus.FAILED) :
    (confirmPayment db ref PaymentStatus.COMPLETED now).1.map Vote.paymentStatus =
        some PaymentStatus.COMPLETED ∧
    (confirmPayment db ref PaymentStatus.COMPLETED now).2.leaderboardTriggers =
        db.leaderboardTriggers + 1 ∧
    ∀ c, db.candidates.find? (fun c0 => c0.id == v.candidateId) = some c →
      candidateVotes (confirmPayment db ref PaymentStatus.COMPLETED now).2
          v.candidateId = c.totalVotes + 1 := by
  have hne : v.paymentStatus ≠ PaymentStatus.COMPLETED := by
    rw [hf]
    exact fun hx => PaymentStatus.noConfusion hx
  refine ⟨?_, (confirm_transition db ref now v hfind hne).2.2.2, ?_⟩
  · rw [(confirm_transition db ref now v hfind hne).1]
    rfl
  · intro c hc
    unfold candidateVotes
    rw [find?_candidates_after_transition db ref now v c hfind hne hc]

/-- C3 (witness): the amended claim instantiated on a store whose only
vote is FAILED. -/
theorem c3_failed_not_terminal_witness :
    (confirmPayment exVdbF 5 PaymentStatus.COMPLETED 3).1.map Vote.paymentStatus =
        some PaymentStatus.COMPLETED ∧
    candidateVotes (confirmPayment exVdbF 5 PaymentStatus.COMPLETED 3).2 7 = 151 :=
  ⟨(c3_failed_not_terminal exVdbF 5 3
        (mkVote 1 7 100 5 PaymentStatus.FAILED) (by decide) (by decide)).1,
   (c3_failed_not_terminal exVdbF 5 3
        (mkVote 1 7 100 5 PaymentStatus.FAILED) (by decide) (by decide)).2.2
      exCand7 (by decide)⟩

/-- C8: `getRisingStars` returns exactly the entries of the fresh
snapshot whose `voteChange` is strictly positive (the JS truthiness
guard `entry.voteChange && entry.voteChange > 0` coincides with
`voteChange > 0`), sorted descending by `voteChange` and truncated to
the requested limit; entries with zero or negative `voteChange` never
appear, and when the positive entries fit under the limit every one of
them appears. -/
theorem c8_rising_stars (db : List Candidate) (s : LeaderboardServiceState)
    (now limit : Nat) :
    (getRisingStars db s now limit).1 =
      (((getLeaderboard db s now 100).1.filter
          (fun e => decide (0 < e.voteChange))).insertionSort voteChangeGe).take limit ∧
    (∀ e ∈ (getRisingStars db s now limit).1,
        0 < e.voteChange ∧ e ∈ (getLeaderboard db s now 100).1) ∧
    List.Sorted voteChangeGe (getRisingStars db s now limit).1 ∧
    (getRisingStars db s now limit).1.length =
      min limit ((getLeaderboard db s now 100).1.filter
        (fun e => decide (0 < e.voteChange))).length ∧
    (∀ e ∈ (getLeaderboard db s now 100).1, 0 < e.voteChange →
        ((getLeaderboard db s now 100).1.filter
          (fun e => decide (0 < e.voteChange))).length ≤ limit →
        e ∈ (getRisingStars db s now limit).1) := by
  have hfe : ∀ e : LeaderboardEntry,
      (decide (e.voteChange ≠ 0 ∧ 0 < e.voteChange)) = decide (0 < e.voteChange) := by
    intro e
    rw [decide_eq_decide]
    constructor
    · exact fun hh => hh.2
    · exact fun hh => ⟨by omega, hh⟩
  have hdef : (getRisingStars db s now limit).1 =
      (((getLeaderboard db s now 100).1.filter
          (fun e => decide (0 < e.voteChange))).insertionSort voteChangeGe).take limit := by
    show (((getLeaderboard db s now 100).1.filter
        (fun e => decide (e.voteChange ≠ 0 ∧ 0 < e.voteChange))).insertionSort
          voteChangeGe).take limit = _
    rw [List.filter_congr (fun e _ => hfe e)]
  refine ⟨hdef, ?_, ?_, ?_, ?_⟩
  · intro e he
    rw [hdef] at he
    have h1 := List.mem_of_mem_take he
    rw [List.mem_insertionSort] at h1
    rw [List.mem_filter] at h1
    exact ⟨of_decide_eq_true h1.2, h1.1⟩
  · rw [hdef]
    exact List.Pairwise.sublist (List.take_sublist _ _)
      (List.sorted_insertionSort voteChangeGe _)
  · rw [hdef, List.length_take, List.length_insertionSort]
  · intro e he hpos hlen
    rw [hdef, List.take_of_length_le (by rw [List.length_insertionSort]; exact hlen)]
    rw [List.mem_insertionSort, List.mem_filter]
    exact ⟨he, by simpa using hpos⟩

def exDb8 : List Candidate := [mkCandidate 1 10 0 0 CandidateStatus.APPROVED]

def exS8 : LeaderboardServiceState :=
  { cachedLeaderboard := [mkEntry 1 1 4], lastUpdate := 0 }

def exE8 : LeaderboardEntry :=
  toEntry exS8.cachedLeaderboard 0 (mkCandidate 1 10 0 0 CandidateStatus.APPROVED)

/-- C8 (witness): on a store whose single approved candidate gained 6
votes since the cached snapshot, the rising-stars membership property
instantiated at the produced entry. -/
theorem c8_rising_stars_witness :
    0 < exE8.voteChange ∧ exE8 ∈ (getLeaderboard exDb8 exS8 0 100).1 :=
  (c8_rising_stars exDb8 exS8 0 10).2.1 exE8 (by decide)

/-- The adjacent pairs (index k, index k+1) of a list, in order: the
pairs the `getTightRaces` loop inspects. -/
def adjPairs : List LeaderboardEntry → List (LeaderboardEntry × LeaderboardEntry)
  | a :: b :: rest => (a, b) :: adjPairs (b :: rest)
  | _ => []

/-- The qualification test of the tight-race loop:
`voteDiff > 0 && voteDiff <= 10`. -/
def tightPair (p : LeaderboardEntry × LeaderboardEntry) : Bool :=
  decide (0 < (p.1.totalVotes : Int) - (p.2.totalVotes : Int) ∧
    (p.1.totalVotes : Int) - (p.2.totalVotes : Int) ≤ 10)

/-- The race record pushed for a qualifying pair. -/
def raceOf (p : LeaderboardEntry × LeaderboardEntry) : TightRace :=
  ⟨p.1, p.2, (p.1.totalVotes : Int) - (p.2.totalVotes : Int)⟩

/-- The tight-race loop collects, in order, the qualifying adjacent
pairs, truncated to the room left in the accumulator. -/
theorem tightRacesLoop_eq (limit : Nat) :
    ∀ (l : List LeaderboardEntry) (acc : List TightRace),
      tightRacesLoop limit l acc =
        acc ++ (((adjPairs l).filter tightPair).map raceOf).take (limit - acc.length) := by
  intro l
  induction l with
  | nil =>
    intro acc
    simp [tightRacesLoop, adjPairs]
  | cons a t ih =>
    intro acc
    cases t with
    | nil =>
      simp [tightRacesLoop, adjPairs]
    | cons b rest =>
      simp only [tightRacesLoop]
      by_cases hlen : acc.length < limit
      · rw [if_pos hlen]
        by_cases hq : (0 < (a.totalVotes : Int) - (b.totalVotes : Int) ∧
            (a.totalVotes : Int) - (b.totalVotes : Int) ≤ 10)
        · rw [if_pos hq, ih]
          have hfq : tightPair (a, b) = true := by
            unfold tightPair
            exact decide_eq_true hq
          simp only [adjPairs, List.filter_cons_of_pos hfq, List.map_cons,
            List.length_append, List.length_cons, List.length_nil, Nat.zero_add]
          rw [List.append_assoc, List.singleton_append]
          have hk : limit - acc.length = (limit - (acc.length + 1)) + 1 := by
            omega
          rw [hk, List.take_succ_cons]
          rfl
        · rw [if_neg hq, ih]
          have hfq : ¬ tightPair (a, b) = true := by
            unfold tightPair
            simp only [decide_eq_true_eq]
            exact hq
          simp only [adjPairs]
          rw [List.filter_cons_of_neg hfq]
      · rw [if_neg hlen]
        have hz : limit - acc.length = 0 := by omega
        rw [hz, List.take_zero, List.append_nil]

/-- `getTightRaces` equals take-limit of the qualifying adjacent pairs
of the fresh snapshot. -/
theorem getTightRaces_eq (db : List Candidate) (s : LeaderboardServiceState)
    (now limit : Nat) :
    (getTightRaces db s now limit).1 =
      (((adjPairs ((getLeaderboard db s now 100).1)).filter tightPair).map
        raceOf).take limit := by
  show tightRacesLoop limit ((getLeaderboard db s now 100).1) [] = _
  rw [tightRacesLoop_eq]
  simp

/-- Adjacent pairs of a chain are related by the chain relation. -/
theorem adjPairs_chain' {R : LeaderboardEntry → LeaderboardEntry → Prop} :
    ∀ {l : List LeaderboardEntry}, List.Chain' R l →
      ∀ p ∈ adjPairs l, R p.1 p.2 := by
  intro l
  induction l with
  | nil =>
    intro _ p hp
    simp [adjPairs] at hp
  | cons a t ih =>
    cases t with
    | nil =>
      intro _ p hp
      simp [adjPairs] at hp
    | cons b rest =>
      intro hc p hp
      rw [List.chain'_cons] at hc
      simp only [adjPairs, List.mem_cons] at hp
      rcases hp with h | h
      · rw [h]
        exact hc.1
      · exact ih hc.2 p h

/-- The first component of an adjacent pair is an element of the
list. -/
theorem adjPairs_fst_mem :
    ∀ {l : List LeaderboardEntry} (p : LeaderboardEntry × LeaderboardEntry),
      p ∈ adjPairs l → p.1 ∈ l := by
  intro l
  induction l with
  | nil =>
    intro p hp
    simp [adjPairs] at hp
  | cons a t ih =>
    cases t with
    | nil =>
      intro p hp
      simp [adjPairs] at hp
    | cons b rest =>
      intro p hp
      simp only [adjPairs, List.mem_cons] at hp
      rcases hp with h | h
      · rw [h]
        exact List.mem_cons_self a _
      · exact List.mem_cons_of_mem a (ih p h)

/-- Pairwise relations transfer from a list to the first components of
its adjacent pairs. -/
theorem adjPairs_pairwise {R : LeaderboardEntry → LeaderboardEntry → Prop} :
    ∀ {l : List LeaderboardEntry}, List.Pairwise R l →
      List.Pairwise (fun p q => R p.1 q.1) (adjPairs l) := by
  intro l
  induction l with
  | nil =>
    intro _
    simp [adjPairs]
  | cons a t ih =>
    cases t with
    | nil =>
      intro _
      simp [adjPairs]
    | cons b rest =>
      intro hpw
      rw [List.pairwise_cons] at hpw
      simp only [adjPairs]
      rw [List.pairwise_cons]
      constructor
      · intro q hq
        exact hpw.1 q.1 (adjPairs_fst_mem q hq)
      · exact ih hpw.2

/-- C7: `getTightRaces` returns at most `limit` races; every returned
race is an adjacent pair of the snapshot (rank k and rank k+1) whose
vote difference d satisfies 0 < d ≤ 10; and the races are in strictly
ascending rank order. -/
theorem c7_tight_races (db : List Candidate) (s : LeaderboardServiceState)
    (now limit : Nat) :
    (getTightRaces db s now limit).1.length ≤ limit ∧
    (∀ r ∈ (getTightRaces db s now limit).1,
        (r.candidate1, r.candidate2) ∈ adjPairs ((getLeaderboard db s now 100).1) ∧
        r.candidate2.rank = r.candidate1.rank + 1 ∧
        r.voteDifference =
          (r.candidate1.totalVotes : Int) - (r.candidate2.totalVotes : Int) ∧
        0 < r.voteDifference ∧ r.voteDifference ≤ 10) ∧
    List.Pairwise (fun r1 r2 => r1.candidate1.rank < r2.candidate1.rank)
      (getTightRaces db s now limit).1 := by
  refine ⟨?_, ?_, ?_⟩
  · rw [getTightRaces_eq]
    exact List.length_take_le _ _
  · intro r hr
    rw [getTightRaces_eq] at hr
    have hr' := List.mem_of_mem_take hr
    rw [List.mem_map] at hr'
    obtain ⟨p, hp, hpr⟩ := hr'
    rw [List.mem_filter] at hp
    have hq := of_decide_eq_true hp.2
    have hchain := getLeaderboard_chain'_rank db s now 100
    have hrank := adjPairs_chain' hchain p hp.1
    rw [← hpr]
    exact ⟨by simpa using hp.1, hrank, rfl, hq.1, hq.2⟩
  · rw [getTightRaces_eq]
    refine List.Pairwise.sublist (List.take_sublist _ _) ?_
    rw [List.pairwise_map]
    refine List.Pairwise.sublist (List.filter_sublist _) ?_
    have hchain := getLeaderboard_chain'_rank db s now 100
    have hlt : List.Chain' (fun x y : LeaderboardEntry => x.rank < y.rank)
        ((getLeaderboard db s now 100).1) :=
      hchain.imp fun a b h => by omega
    haveI : IsTrans LeaderboardEntry (fun x y => x.rank < y.rank) :=
      ⟨fun a b c h1 h2 => lt_trans h1 h2⟩
    have hpw := adjPairs_pairwise (R := fun x y => x.rank < y.rank)
      (List.chain'_iff_pairwise.mp hlt)
    exact hpw

def exDb7 : List Candidate :=
  [mkCandidate 1 10 0 0 CandidateStatus.APPROVED,
   mkCandidate 2 7 0 1 CandidateStatus.APPROVED]

def exRace7 : TightRace :=
  ⟨toEntry [] 0 (mkCandidate 1 10 0 0 CandidateStatus.APPROVED),
   toEntry [] 1 (mkCandidate 2 7 0 1 CandidateStatus.APPROVED), 3⟩

/-- C7 (witness): the per-race property instantiated on a store with two
approved candidates three votes apart. -/
theorem c7_tight_races_witness :
    (exRace7.candidate1, exRace7.candidate2) ∈
        adjPairs ((getLeaderboard exDb7 initialState 0 100).1) ∧
    exRace7.candidate2.rank = exRace7.candidate1.rank + 1 ∧
    exRace7.voteDifference =
      (exRace7.candidate1.totalVotes : Int) - (exRace7.candidate2.totalVotes : Int) ∧
    0 < exRace7.voteDifference ∧ exRace7.voteDifference ≤ 10 :=
  (c7_tight_races exDb7 initialState 0 10).2.1 exRace7 (by decide)

/-- The full sorted list of approved candidates (the ranking before the
`take: limit` cap). -/
def sortedApproved (db : List Candidate) : List Candidate :=
  (db.filter fun c => c.status == CandidateStatus.APPROVED).insertionSort candidateOrder

/-- C10: `getCandidateRank` searches only `getLeaderboard(100)` while
its `total` counts all approved candidates, so an approved candidate
sitting at 0-based position `j ≥ 100` of the full ranking (i.e. ranked
below position 100) yields `entry = none` together with
`total > 100`.  Candidate ids are assumed distinct, as guaranteed by the
primary key of the `candidate` table. -/
theorem c10_rank_beyond_top100 (db : List Candidate) (s : LeaderboardServiceState)
    (now cid j : Nat)
    (hnd : ((db.filter fun c => c.status == CandidateStatus.APPROVED).map
      Candidate.id).Nodup)
    (hj : 100 ≤ j) (hjlt : j < (sortedApproved db).length)
    (hid : ((sortedApproved db).get ⟨j, hjlt⟩).id = cid) :
    ((getCandidateRank db s now cid).1).1 = none ∧
    100 < ((getCandidateRank db s now cid).1).2 := by
  have hlen : (sortedApproved db).length = countApproved db := by
    unfold sortedApproved countApproved
    exact List.length_insertionSort _ _
  constructor
  · show ((getLeaderboard db s now 100).1.find? fun e => e.candidateId == cid) = none
    rw [List.find?_eq_none]
    intro e he
    have h2 : e.candidateId ∈ ((findManyApproved db 100).enum.map
        (fun ic => toEntry s.cachedLeaderboard ic.1 ic.2)).map LeaderboardEntry.candidateId :=
      List.mem_map_of_mem _ he
    rw [map_candidateId_toEntry] at h2
    rw [List.mem_map] at h2
    obtain ⟨c, hcmem, hcid⟩ := h2
    have hcmem' : c ∈ (sortedApproved db).take 100 := hcmem
    obtain ⟨i, hi, hci⟩ := List.mem_iff_getElem.mp hcmem'
    have hi100 : i < 100 := lt_of_lt_of_le hi (List.length_take_le _ _)
    have hil : i < (sortedApproved db).length := by
      rw [List.length_take] at hi
      omega
    rw [List.getElem_take] at hci
    have hndm : ((sortedApproved db).map Candidate.id).Nodup := by
      have hperm : (sortedApproved db).Perm
          (db.filter fun c => c.status == CandidateStatus.APPROVED) :=
        List.perm_insertionSort _ _
      exact ((hperm.map Candidate.id).nodup_iff).mpr hnd
    simp only [beq_iff_eq]
    intro hEq
    have hmi : i < ((sortedApproved db).map Candidate.id).length := by
      rw [List.length_map]
      exact hil
    have hmj : j < ((sortedApproved db).map Candidate.id).length := by
      rw [List.length_map]
      exact hjlt
    have hgets : ((sortedApproved db).map Candidate.id).get ⟨i, hmi⟩ =
        ((sortedApproved db).map Candidate.id).get ⟨j, hmj⟩ := by
      rw [List.get_eq_getElem, List.get_eq_getElem, List.getElem_map, List.getElem_map]
      rw [hci, hcid, hEq]
      rw [List.get_eq_getElem] at hid
      rw [hid]
    have hij : i = j := by
      rw [List.get_eq_getElem, List.get_eq_getElem] at hgets
      exact (List.Nodup.getElem_inj_iff hndm).mp hgets
    omega
  · show 100 < countApproved db
    omega

def bigDb : List Candidate :=
  (List.range 101).map fun i => mkCandidate (i + 1) (200 - i) 0 0 CandidateStatus.APPROVED

/-- C10 (witness): with 101 approved candidates whose vote counts
strictly decrease with their id, candidate 101 sits at 0-based position
100 of the full ranking, and `getCandidateRank` reports it not found
with a total of 101. -/
theorem c10_rank_beyond_top100_witness :
    ((getCandidateRank bigDb initialState 0 101).1).1 = none ∧
    100 < ((getCandidateRank bigDb initialState 0 101).1).2 :=
  c10_rank_beyond_top100 bigDb initialState 0 101 100 (by decide) (by decide)
    (by decide) (by decide)

end Spotlight
